import Mathlib

/-!
# Verification of the express-crud-api User CRUD service

Shallow embedding of the repository's User CRUD service:
* the `User` entity and its `class-validator` rules (`src/entity/User.ts`),
* the repository layer (`src/repository/UserRepository.ts`),
* the HTTP controller handlers (`src/controller/UserController.ts`).

The underlying store (TypeORM + database) is an external collaborator; its
single-row operations (`findAndCount` with skip/take/order, `findOne`,
`save`, `update`, `delete`) are modelled from the spec's repository contract
as pure functions over an explicit store state.  JavaScript's `parseInt` and
the `|| default` idiom are modelled faithfully.  Timestamps are `Nat`
(milliseconds); the request time is passed explicitly to the mutating
handlers.  A store that throws is modelled by an `Except.error` state; each
handler's `try/catch` maps it to the 500 response exactly as the source does.

Request bodies are modelled as well-typed partial records (the four
client-suppliable fields of the API table: firstName, lastName, email, age),
each field optional — `none` models a property absent from the JSON body.
-/

/-- JavaScript whitespace accepted by `parseInt` before the number. -/
def isJsSpace (c : Char) : Bool :=
  c = ' ' ∨ c = '\t' ∨ c = '\n' ∨ c = '\r' ∨ c = '\x0b' ∨ c = '\x0c'

/-- Accumulate the longest prefix of digits (value of digit given by `val?`). -/
def takeDigits (val? : Char → Option Nat) (base : Nat) : List Char → Nat → Nat
  | [], acc => acc
  | c :: rest, acc =>
    match val? c with
    | some d => takeDigits val? base rest (acc * base + d)
    | none => acc

/-- Decimal digit value. -/
def decVal? (c : Char) : Option Nat :=
  if c.isDigit then some (c.toNat - 48) else none

/-- Hexadecimal digit value. -/
def hexVal? (c : Char) : Option Nat :=
  if c.isDigit then some (c.toNat - 48)
  else if 'a' ≤ c ∧ c ≤ 'f' then some (c.toNat - 97 + 10)
  else if 'A' ≤ c ∧ c ≤ 'F' then some (c.toNat - 65 + 10)
  else none

/-- Model of JavaScript `parseInt(s)` (radix unspecified): skip leading
whitespace, optional sign, an optional `0x`/`0X` hex prefix, then the longest
prefix of digits; `none` models `NaN` (no digit found). -/
def jsParseInt (s : String) : Option Int :=
  let cs := s.toList.dropWhile isJsSpace
  let signAndRest : Int × List Char :=
    match cs with
    | '-' :: r => (-1, r)
    | '+' :: r => (1, r)
    | _ => (1, cs)
  let sign := signAndRest.1
  let body := signAndRest.2
  match body with
  | '0' :: x :: rest =>
    if x = 'x' ∨ x = 'X' then
      match rest with
      | c :: _ =>
        if (hexVal? c).isSome then some (sign * (takeDigits hexVal? 16 rest 0 : Nat)) else none
      | [] => none
    else some (sign * (takeDigits decVal? 10 body 0 : Nat))
  | c :: _ =>
    if c.isDigit then some (sign * (takeDigits decVal? 10 body 0 : Nat)) else none
  | [] => none

/-- Model of `parseInt(x) || d`: `NaN` (`none`) and `0` are falsy, so both
fall back to the default. -/
def orDefault (v : Option Int) (d : Int) : Int :=
  match v with
  | none => d
  | some n => if n = 0 then d else n

/-- The User entity (src/entity/User.ts): id is system-generated,
createdAt/updatedAt are managed timestamps. -/
structure User where
  id : Int
  firstName : String
  lastName : String
  email : String
  age : Int
  createdAt : Nat
  updatedAt : Nat
deriving Repr, DecidableEq

/-- A request body: partial record of the client-suppliable fields
(POST/PUT body columns of the API table); `none` = property absent. -/
structure UserBody where
  firstName : Option String
  lastName : Option String
  email : Option String
  age : Option Int
deriving Repr, DecidableEq

/-- One entry of the validation-failure list sent to the client:
`{ field: error.property, constraints: error.constraints }`, the constraints
being pairs (rule name, message). -/
structure FieldError where
  field : String
  constraints : List (String × String)
deriving Repr, DecidableEq

/-- class-validator `IsNotEmpty`: fails exactly on the empty string (null and
undefined are already skipped by `skipMissingProperties`). -/
def isNotEmptyStr (s : String) : Bool := ¬ s = ""

/-- One decorated property: absent properties are skipped
(`skipMissingProperties: true`); a present property contributes one
`{field, constraints}` entry when its rule fails. -/
def checkStrField (name : String) (v : Option String) (msg : String) : List FieldError :=
  match v with
  | none => []
  | some s => if isNotEmptyStr s then [] else [⟨name, [("isNotEmpty", msg)]⟩]

/-- Rule `IsNumber` on the age property: a present (well-typed) number always
passes; an absent property is skipped. -/
def checkAgeField (v : Option Int) : List FieldError :=
  match v with
  | none => []
  | some _ => []

/-- Model of `validate(userData, \x7b skipMissingProperties: true \x7d)` over the entity's
decorated properties (src/entity/User.ts): IsNotEmpty on firstName, lastName,
email and IsNumber on age. -/
def validateUser (b : UserBody) : List FieldError :=
  checkStrField "firstName" b.firstName "First name is required"
    ++ checkStrField "lastName" b.lastName "Last name is required"
    ++ checkStrField "email" b.email "Email is required"
    ++ checkAgeField b.age

/-- The persistent store state: the User table plus the auto-increment
counter backing `@PrimaryGeneratedColumn`. -/
structure Store where
  users : List User
  nextId : Int
deriving Repr, DecidableEq

/-- Descending order on `createdAt`, i.e. `order: { createdAt: "DESC" }`. -/
def byCreatedAtDesc (a b : User) : Prop := b.createdAt ≤ a.createdAt

instance : DecidableRel byCreatedAtDesc := fun a b => Nat.decLe b.createdAt a.createdAt

instance : IsTotal User byCreatedAtDesc :=
  ⟨fun a b => le_total b.createdAt a.createdAt⟩

instance : IsTrans User byCreatedAtDesc :=
  ⟨fun _ _ _ h1 h2 => le_trans h2 h1⟩

/-- The table ordered by `createdAt` descending. -/
def sortedUsers (s : Store) : List User := List.insertionSort byCreatedAtDesc s.users

/-- Modelled from the spec: TypeORM `findAndCount` with
`skip/take/order createdAt DESC` returns the requested window of the ordered
table together with the total row count. -/
def storeFindAndCount (skip take : Nat) (s : Store) : List User × Nat :=
  (((sortedUsers s).drop skip).take take, s.users.length)

/-- Modelled from the spec: TypeORM `findOne({ where: { id } })`. -/
def storeFindOne (id : Int) (s : Store) : Option User :=
  s.users.find? (fun u => u.id = id)

/-- Modelled from the spec: TypeORM `create` + `save` persists a new record,
assigning the generated id and both timestamps. -/
def storeCreate (b : UserBody) (now : Nat) (s : Store) : User × Store :=
  let u : User :=
    { id := s.nextId
      firstName := b.firstName.getD ""
      lastName := b.lastName.getD ""
      email := b.email.getD ""
      age := b.age.getD 0
      createdAt := now
      updatedAt := now }
  (u, { users := s.users ++ [u], nextId := s.nextId + 1 })

/-- Apply a partial body to a record: supplied fields replace the stored
values and the `@UpdateDateColumn` is refreshed to the current time. -/
def applyBody (b : UserBody) (now : Nat) (u : User) : User :=
  { u with
    firstName := b.firstName.getD u.firstName
    lastName := b.lastName.getD u.lastName
    email := b.email.getD u.email
    age := b.age.getD u.age
    updatedAt := now }

/-- Modelled from the spec: TypeORM `update(id, partial)` sets the supplied
columns (and the update timestamp) on every row matching the id; `affected`
is the number of matched rows.  The repository then re-reads the record
(src/repository/UserRepository.ts `update`). -/
def storeUpdate (id : Int) (b : UserBody) (now : Nat) (s : Store) : Option User × Store :=
  let affected := s.users.countP (fun u => decide (u.id = id))
  if affected = 0 then (none, s)
  else
    let s' : Store :=
      { s with users := s.users.map (fun u => if u.id = id then applyBody b now u else u) }
    (storeFindOne id s', s')

/-- Modelled from the spec: TypeORM `delete(id)` removes the matching rows
and reports whether any row was affected
(src/repository/UserRepository.ts `delete`). -/
def storeDelete (id : Int) (s : Store) : Bool × Store :=
  let affected := s.users.countP (fun u => decide (u.id = id))
  (affected > 0, { s with users := s.users.filter (fun u => ¬ u.id = id) })

/-- The repository's page result (src/repository/UserRepository.ts
`findAll`): data window, total count, echoed page, and
`totalPages = Math.ceil(total / limit)` (real division, then ceiling). -/
structure PageResult where
  data : List User
  total : Nat
  page : Int
  totalPages : Nat
deriving Repr, DecidableEq

namespace UserRepository

/-- Repository method `UserRepository.findAll(page, limit)`: `skip := (page - 1) * limit`,
`take := limit`, ordered by `createdAt DESC`;
`totalPages := Math.ceil(total / limit)`. -/
def findAll (page limit : Int) (s : Store) : PageResult :=
  let skip := ((page - 1) * limit).toNat
  let res := storeFindAndCount skip limit.toNat s
  { data := res.1
    total := res.2
    page := page
    totalPages := (⌈(res.2 : ℚ) / (limit : ℚ)⌉).toNat }

end UserRepository

/-- A response body as serialized to the client
(src/controller/UserController.ts). -/
inductive RespBody where
  /-- The `\x7b error: msg \x7d` body -/
  | errMsg (msg : String)
  /-- The `\x7b message, data, total, page, totalPages \x7d` body of the list endpoint -/
  | listOk (msg : String) (res : PageResult)
  /-- The `\x7b message, data: user \x7d` body -/
  | userOk (msg : String) (u : User)
  /-- The `\x7b message, data: updatedUser \x7d` body, where the re-read may be null -/
  | updateOk (msg : String) (u : Option User)
  /-- The `\x7b error: "Validation failed", details \x7d` body -/
  | validationFail (msg : String) (details : List FieldError)
  /-- The `\x7b message \x7d` body of the delete endpoint -/
  | deleteOk (msg : String)
deriving Repr, DecidableEq

/-- An HTTP response: status code and JSON body. -/
structure Response where
  status : Nat
  body : RespBody
deriving Repr, DecidableEq

/-- The store as seen through the ORM connection: `Except.error e` models a
store whose every operation throws with message `e` (e.g. the database is
unavailable); the handlers' `try/catch` turns that into a 500. -/
def Db : Type := Except String Store

/-- Query parameters of the list endpoint; `none` = parameter absent. -/
structure ListQuery where
  page : Option String
  limit : Option String
deriving Repr, DecidableEq

/-- Model of `parseInt(request.query.page as string) || 1`. -/
def effPage (q : ListQuery) : Int := orDefault (q.page.bind jsParseInt) 1

/-- Model of `parseInt(request.query.limit as string) || 10`. -/
def effLimit (q : ListQuery) : Int := orDefault (q.limit.bind jsParseInt) 10

/-- Outcome of a handler: the response, the trace of repository operations
performed (in order), and the store afterwards. -/
structure HandlerOut where
  resp : Response
  calls : List String
  db : Db

namespace UserController

/-- Handler `UserController.findAll` (GET /users): parse page/limit with defaults,
range-check, then call the repository; any repository throw is caught as a
500 with a fixed message. -/
def findAll (q : ListQuery) (db : Db) : HandlerOut :=
  let page := effPage q
  let limit := effLimit q
  if page < 1 then
    ⟨⟨400, .errMsg "Page number must be greater than 0"⟩, [], db⟩
  else if limit < 1 ∨ limit > 100 then
    ⟨⟨400, .errMsg "Limit must be between 1 and 100"⟩, [], db⟩
  else
    match db with
    | .error _ => ⟨⟨500, .errMsg "Internal server error"⟩, ["findAll"], db⟩
    | .ok s =>
      ⟨⟨200, .listOk "Users retrieved successfully" (UserRepository.findAll page limit s)⟩,
        ["findAll"], .ok s⟩

/-- Handler `UserController.findOne` (GET /users/:id). -/
def findOne (idStr : String) (db : Db) : HandlerOut :=
  match jsParseInt idStr with
  | none => ⟨⟨400, .errMsg "Invalid user ID"⟩, [], db⟩
  | some id =>
    match db with
    | .error _ => ⟨⟨500, .errMsg "Internal server error"⟩, ["findOne"], db⟩
    | .ok s =>
      match storeFindOne id s with
      | none => ⟨⟨404, .errMsg "User not found"⟩, ["findOne"], db⟩
      | some u => ⟨⟨200, .userOk "User retrieved successfully" u⟩, ["findOne"], db⟩

/-- Handler `UserController.create` (POST /users): validate the body
(`skipMissingProperties: true`), then persist. -/
def create (b : UserBody) (now : Nat) (db : Db) : HandlerOut :=
  let errs := validateUser b
  if errs.length > 0 then
    ⟨⟨400, .validationFail "Validation failed" errs⟩, [], db⟩
  else
    match db with
    | .error _ => ⟨⟨500, .errMsg "Internal server error"⟩, ["create"], db⟩
    | .ok s =>
      let res := storeCreate b now s
      ⟨⟨201, .userOk "User created successfully" res.1⟩, ["create"], .ok res.2⟩

/-- The merged record `{ ...existingUser, ...request.body }` that `update`
validates: every decorated property is present, body fields win. -/
def mergeBody (u : User) (b : UserBody) : UserBody :=
  { firstName := some (b.firstName.getD u.firstName)
    lastName := some (b.lastName.getD u.lastName)
    email := some (b.email.getD u.email)
    age := some (b.age.getD u.age) }

/-- Handler `UserController.update` (PUT /users/:id): parse id, look up the record,
validate the merged record, then apply the partial update (the raw body)
via the repository. -/
def update (idStr : String) (b : UserBody) (now : Nat) (db : Db) : HandlerOut :=
  match jsParseInt idStr with
  | none => ⟨⟨400, .errMsg "Invalid user ID"⟩, [], db⟩
  | some id =>
    match db with
    | .error _ => ⟨⟨500, .errMsg "Internal server error"⟩, ["findOne"], db⟩
    | .ok s =>
      match storeFindOne id s with
      | none => ⟨⟨404, .errMsg "User not found"⟩, ["findOne"], db⟩
      | some u =>
        let errs := validateUser (mergeBody u b)
        if errs.length > 0 then
          ⟨⟨400, .validationFail "Validation failed" errs⟩, ["findOne"], db⟩
        else
          let res := storeUpdate id b now s
          ⟨⟨200, .updateOk "User updated successfully" res.1⟩,
            ["findOne", "update"], .ok res.2⟩

/-- Handler `UserController.delete` (DELETE /users/:id). -/
def delete (idStr : String) (db : Db) : HandlerOut :=
  match jsParseInt idStr with
  | none => ⟨⟨400, .errMsg "Invalid user ID"⟩, [], db⟩
  | some id =>
    match db with
    | .error _ => ⟨⟨500, .errMsg "Internal server error"⟩, ["delete"], db⟩
    | .ok s =>
      let res := storeDelete id s
      if res.1 then ⟨⟨200, .deleteOk "User deleted successfully"⟩, ["delete"], .ok res.2⟩
      else ⟨⟨404, .errMsg "User not found"⟩, ["delete"], .ok res.2⟩

end UserController

/-- Spec-side predicate (for comparison with the code's parsing): a string
that is a valid integer literal — an optional sign followed by one or more
decimal digits and nothing else. -/
def isIntegerString (s : String) : Bool :=
  let cs := s.toList
  let body := match cs with
    | '-' :: r => r
    | '+' :: r => r
    | _ => cs
  ¬ body = [] ∧ body.all Char.isDigit

/-- An empty table (used to evaluate the handlers at concrete inputs). -/
def emptyStore : Store := ⟨[], 1⟩

/-- A working connection to the empty table. -/
def emptyDb : Db := Except.ok emptyStore

/-- Sample existing record used to evaluate the theorems concretely. -/
def sampleUser : User :=
  { id := 1, firstName := "Alice", lastName := "Wilson", email := "alice@example.com",
    age := 28, createdAt := 5, updatedAt := 5 }

/-- A one-record table. -/
def oneUserStore : Store := ⟨[sampleUser], 2⟩

/-- One Update request of a sequence: path id, body, request time. -/
structure UpdOp where
  idStr : String
  body : UserBody
  now : Nat

/-- Run one Update request against the store, keeping only the resulting
store state (a throwing store is left as it was). -/
def stepUpdate (s : Store) (op : UpdOp) : Store :=
  match (UserController.update op.idStr op.body op.now (Except.ok s)).db with
  | .ok s' => s'
  | .error _ => s

/-- Run a sequence of Update requests. -/
def applyUpdates (ops : List UpdOp) (s : Store) : Store := ops.foldl stepUpdate s

/-- Whether the request body contains the named property. -/
def bodyHasField (b : UserBody) (name : String) : Bool :=
  if name = "firstName" then b.firstName.isSome
  else if name = "lastName" then b.lastName.isSome
  else if name = "email" then b.email.isSome
  else if name = "age" then b.age.isSome
  else false

/-- C1 counterexample: the query string `page=0` denotes the number 0, which
is outside the valid range, yet the handler responds 200 and calls the store:
`parseInt("0") = 0` is falsy, so `parseInt(...) || 1` silently replaces it
with the default page 1. -/
theorem c1_page_zero_not_rejected :
    jsParseInt "0" = some 0 ∧ (0 : Int) < 1 ∧
    (UserController.findAll ⟨some "0", none⟩ emptyDb).resp.status = 200 ∧
    (UserController.findAll ⟨some "0", none⟩ emptyDb).calls = ["findAll"] := by
  refine ⟨by decide, by decide, ?_, ?_⟩ <;> rfl

/-- C1 (amended): range checking applies to the *effective* page and limit,
i.e. the `parseInt` results after the `|| default` fallback (so a value that
parses to 0 or fails to parse falls back to the default and is accepted).
Whenever the effective page is < 1 or the effective limit is outside
[1,100], the handler responds 400, performs no store operation, and leaves
the store untouched. -/
theorem findAll_out_of_range_rejected (q : ListQuery) (db : Db)
    (h : effPage q < 1 ∨ effLimit q < 1 ∨ 100 < effLimit q) :
    (UserController.findAll q db).resp.status = 400 ∧
    (UserController.findAll q db).calls = [] ∧
    (UserController.findAll q db).db = db := by
  simp only [UserController.findAll]
  by_cases hp : effPage q < 1
  · rw [if_pos hp]
    exact ⟨rfl, rfl, rfl⟩
  · have hl : effLimit q < 1 ∨ effLimit q > 100 := by
      rcases h with h | h | h
      · exact absurd h hp
      · exact Or.inl h
      · exact Or.inr h
    rw [if_neg hp, if_pos hl]
    exact ⟨rfl, rfl, rfl⟩

/-- Witness for `findAll_out_of_range_rejected` at `page=-1`. -/
theorem findAll_out_of_range_rejected_witness :
    (effPage ⟨some "-1", none⟩ < 1 ∨ effLimit ⟨some "-1", none⟩ < 1 ∨
      100 < effLimit ⟨some "-1", none⟩) ∧
    ((UserController.findAll ⟨some "-1", none⟩ emptyDb).resp.status = 400 ∧
     (UserController.findAll ⟨some "-1", none⟩ emptyDb).calls = [] ∧
     (UserController.findAll ⟨some "-1", none⟩ emptyDb).db = emptyDb) :=
  ⟨by decide, findAll_out_of_range_rejected ⟨some "-1", none⟩ emptyDb (by decide)⟩

/-- The `Math.ceil` of the rational `t / l` agrees with natural ceiling
division when `l > 0`. -/
theorem toNat_ceil_div_eq_ceilDiv (t l : ℕ) (hl : 0 < l) :
    (⌈(t : ℚ) / (l : ℚ)⌉).toNat = t ⌈/⌉ l := by
  have hl' : (0 : ℚ) < (l : ℚ) := by exact_mod_cast hl
  refine Nat.le_antisymm ?_ ?_
  · rw [Int.toNat_le, Int.ceil_le, div_le_iff₀ hl']
    have h := le_smul_ceilDiv (a := l) (b := t) hl
    have h' : t ≤ (t ⌈/⌉ l) * l := by simpa [Nat.mul_comm, smul_eq_mul] using h
    exact_mod_cast h'
  · rw [ceilDiv_le_iff_le_smul hl, smul_eq_mul]
    have hnn : (0 : ℚ) ≤ (t : ℚ) / (l : ℚ) := by positivity
    have h1 : (t : ℚ) / l ≤ (⌈(t : ℚ) / l⌉ : ℚ) := Int.le_ceil _
    have h2 : (t : ℚ) ≤ (⌈(t : ℚ) / l⌉ : ℚ) * l := (div_le_iff₀ hl').1 h1
    have hc : (0 : ℤ) ≤ ⌈(t : ℚ) / l⌉ := Int.ceil_nonneg hnn
    have h3 : (t : ℤ) ≤ ⌈(t : ℚ) / l⌉ * l := by exact_mod_cast h2
    have h4 : ((t : ℤ)) ≤ ((⌈(t : ℚ) / l⌉.toNat : ℤ)) * l := by
      rwa [Int.toNat_of_nonneg hc]
    have h5 : t ≤ ⌈(t : ℚ) / l⌉.toNat * l := by exact_mod_cast h4
    calc (t : ℕ) ≤ ⌈(t : ℚ) / l⌉.toNat * l := h5
      _ = l * ⌈(t : ℚ) / l⌉.toNat := Nat.mul_comm _ _

/-- C2: for every page ≥ 1 and limit in [1,100], the repository's `findAll`
returns at most `limit` records — precisely the window obtained by skipping
`(page-1)*limit` records of the ordered table and taking `limit` — and the
returned `totalPages` is the ceiling of `total / limit`. -/
theorem findAll_window_and_totalPages (page limit : Int) (s : Store)
    (hp : 1 ≤ page) (hl1 : 1 ≤ limit) (hl2 : limit ≤ 100) :
    (UserRepository.findAll page limit s).data.length ≤ limit.toNat ∧
    (UserRepository.findAll page limit s).data =
      ((sortedUsers s).drop (((page - 1) * limit).toNat)).take limit.toNat ∧
    (UserRepository.findAll page limit s).totalPages =
      s.users.length ⌈/⌉ limit.toNat := by
  refine ⟨?_, rfl, ?_⟩
  · exact List.length_take_le _ _
  · have hl : 0 < limit.toNat := by omega
    have hcast : ((limit.toNat : ℕ) : ℚ) = (limit : ℚ) := by
      exact_mod_cast congrArg (Int.cast : ℤ → ℚ) (Int.toNat_of_nonneg (by omega))
    have : (UserRepository.findAll page limit s).totalPages =
        (⌈(s.users.length : ℚ) / (limit : ℚ)⌉).toNat := rfl
    rw [this, ← hcast]
    exact toNat_ceil_div_eq_ceilDiv s.users.length limit.toNat hl

/-- Witness for `findAll_window_and_totalPages` at page 1, limit 10. -/
theorem findAll_window_and_totalPages_witness :
    (1 : Int) ≤ 1 ∧ (1 : Int) ≤ 10 ∧ (10 : Int) ≤ 100 ∧
    ((UserRepository.findAll 1 10 emptyStore).data.length ≤ (10 : Int).toNat ∧
     (UserRepository.findAll 1 10 emptyStore).data =
       ((sortedUsers emptyStore).drop ((((1 : Int) - 1) * 10).toNat)).take (10 : Int).toNat ∧
     (UserRepository.findAll 1 10 emptyStore).totalPages =
       emptyStore.users.length ⌈/⌉ (10 : Int).toNat) :=
  ⟨by decide, by decide, by decide,
    findAll_window_and_totalPages 1 10 emptyStore (by decide) (by decide) (by decide)⟩

/-- C3 counterexample: the path id `"12abc"` is not a valid integer, yet the
handler does not respond 400 and does access the store: `parseInt("12abc")`
parses the prefix `12`, so the handler proceeds to look id 12 up (404 on the
empty table). -/
theorem c3_nonInteger_id_not_rejected :
    isIntegerString "12abc" = false ∧
    (UserController.findOne "12abc" emptyDb).resp.status = 404 ∧
    (UserController.findOne "12abc" emptyDb).calls = ["findOne"] := by
  refine ⟨by decide, ?_, ?_⟩ <;> rfl

/-- C3 (amended): for every Get, Update, or Delete request whose path id has
no parseable integer prefix (`parseInt` yields NaN), the handler responds
400 and performs no store operation. -/
theorem invalid_id_rejected (idStr : String) (b : UserBody) (now : Nat) (db : Db)
    (h : jsParseInt idStr = none) :
    UserController.findOne idStr db = ⟨⟨400, .errMsg "Invalid user ID"⟩, [], db⟩ ∧
    UserController.update idStr b now db = ⟨⟨400, .errMsg "Invalid user ID"⟩, [], db⟩ ∧
    UserController.delete idStr db = ⟨⟨400, .errMsg "Invalid user ID"⟩, [], db⟩ := by
  refine ⟨?_, ?_, ?_⟩ <;>
    simp only [UserController.findOne, UserController.update, UserController.delete, h]

/-- Witness for `invalid_id_rejected` at id `"abc"`. -/
theorem invalid_id_rejected_witness :
    jsParseInt "abc" = none ∧
    (UserController.findOne "abc" emptyDb = ⟨⟨400, .errMsg "Invalid user ID"⟩, [], emptyDb⟩ ∧
     UserController.update "abc" ⟨none, none, none, none⟩ 0 emptyDb =
       ⟨⟨400, .errMsg "Invalid user ID"⟩, [], emptyDb⟩ ∧
     UserController.delete "abc" emptyDb = ⟨⟨400, .errMsg "Invalid user ID"⟩, [], emptyDb⟩) :=
  ⟨by decide, invalid_id_rejected "abc" ⟨none, none, none, none⟩ 0 emptyDb (by decide)⟩

/-- Every entry a string-field check produces carries exactly one violated
rule in its constraints map. -/
theorem checkStrField_one_constraint (name : String) (v : Option String) (msg : String) :
    ∀ e ∈ checkStrField name v msg, e.constraints.length = 1 := by
  intro e he
  cases v with
  | none => simp [checkStrField] at he
  | some s =>
    by_cases hs : isNotEmptyStr s
    · simp [checkStrField, hs] at he
    · simp [checkStrField, hs] at he
      subst he
      rfl

/-- Every validation-failure entry carries exactly one violated rule. -/
theorem validateUser_one_constraint (b : UserBody) :
    ∀ e ∈ validateUser b, e.constraints.length = 1 := by
  intro e he
  unfold validateUser at he
  simp only [List.mem_append] at he
  rcases he with ((he | he) | he) | he
  · exact checkStrField_one_constraint _ _ _ e he
  · exact checkStrField_one_constraint _ _ _ e he
  · exact checkStrField_one_constraint _ _ _ e he
  · cases h : b.age <;> rw [h] at he <;> simp [checkAgeField] at he

/-- C4: a Create request whose body has `firstName` equal to the empty string
is rejected with 400 before any store access; the violation list is returned
as the `details` of the response, contains an entry whose field is
`firstName`, and has one entry per violated rule (each entry's constraints
hold exactly one rule). -/
theorem create_empty_firstName_rejected (b : UserBody) (now : Nat) (db : Db)
    (h : b.firstName = some "") :
    (UserController.create b now db).resp =
      ⟨400, .validationFail "Validation failed" (validateUser b)⟩ ∧
    (UserController.create b now db).calls = [] ∧
    (∃ e ∈ validateUser b, e.field = "firstName") ∧
    (∀ e ∈ validateUser b, e.constraints.length = 1) := by
  have hf : checkStrField "firstName" b.firstName "First name is required" =
      [⟨"firstName", [("isNotEmpty", "First name is required")]⟩] := by
    rw [h]; rfl
  have hmem : (⟨"firstName", [("isNotEmpty", "First name is required")]⟩ : FieldError)
      ∈ validateUser b := by
    unfold validateUser
    rw [hf]
    simp
  have hlen : (validateUser b).length > 0 := by
    cases hv : validateUser b with
    | nil => rw [hv] at hmem; simp at hmem
    | cons x xs => simp
  refine ⟨?_, ?_, ⟨_, hmem, rfl⟩, validateUser_one_constraint b⟩ <;>
    simp only [UserController.create, if_pos hlen]

/-- Witness for `create_empty_firstName_rejected`. -/
theorem create_empty_firstName_rejected_witness :
    (⟨some "", none, none, none⟩ : UserBody).firstName = some "" ∧
    ((UserController.create ⟨some "", none, none, none⟩ 0 emptyDb).resp =
       ⟨400, .validationFail "Validation failed" (validateUser ⟨some "", none, none, none⟩)⟩ ∧
     (UserController.create ⟨some "", none, none, none⟩ 0 emptyDb).calls = [] ∧
     (∃ e ∈ validateUser ⟨some "", none, none, none⟩, e.field = "firstName") ∧
     (∀ e ∈ validateUser ⟨some "", none, none, none⟩, e.constraints.length = 1)) :=
  ⟨by decide, create_empty_firstName_rejected ⟨some "", none, none, none⟩ 0 emptyDb (by decide)⟩

/-- C9: every page the repository returns is sorted by `createdAt`
descending (each record's `createdAt` is ≥ every later record's), and the
result carries the total record count alongside the page. -/
theorem findAll_sorted_desc_and_total (page limit : Int) (s : Store) :
    ((UserRepository.findAll page limit s).data).Pairwise byCreatedAtDesc ∧
    (UserRepository.findAll page limit s).total = s.users.length := by
  refine ⟨?_, rfl⟩
  have hsorted : (sortedUsers s).Pairwise byCreatedAtDesc :=
    List.sorted_insertionSort byCreatedAtDesc s.users
  have hsub : (UserRepository.findAll page limit s).data.Sublist (sortedUsers s) :=
    (List.take_sublist _ _).trans (List.drop_sublist _ _)
  exact hsorted.sublist hsub

/-- A record found by id is in the table and matches the id. -/
theorem storeFindOne_mem {id : Int} {s : Store} {u : User}
    (h : storeFindOne id s = some u) : u ∈ s.users ∧ u.id = id := by
  unfold storeFindOne at h
  exact ⟨List.mem_of_find?_eq_some h, by simpa using List.find?_some h⟩

/-- Updating the matching rows maps the first record found for the id to its
updated image. -/
theorem find?_update_map (id : Int) (b : UserBody) (now : Nat) :
    ∀ (l : List User) (u : User),
      l.find? (fun v => v.id = id) = some u →
      (l.map (fun v => if v.id = id then applyBody b now v else v)).find?
          (fun v => v.id = id) = some (applyBody b now u) := by
  intro l
  induction l with
  | nil => intro u h; simp at h
  | cons x xs ih =>
    intro u h
    by_cases hx : x.id = id
    · rw [List.find?_cons_of_pos _ (by simpa using hx)] at h
      cases h
      rw [List.map_cons, if_pos hx]
      exact List.find?_cons_of_pos _ (by simp [applyBody, hx])
    · rw [List.find?_cons_of_neg _ (by simpa using hx)] at h
      rw [List.map_cons, if_neg hx]
      rw [List.find?_cons_of_neg _ (by simpa using hx)]
      exact ih u h

/-- C5: on Update, a nonexistent id yields 404 (after the single lookup, with
the store untouched); on an existing id whose merged record validates, when
the clock has advanced past the record's `updatedAt`, the response is the
updated record: every unsupplied field keeps its previous value, every
supplied field equals the supplied value, `id`/`createdAt` are unchanged and
`updatedAt` is strictly greater than before. -/
theorem update_semantics (idStr : String) (id : Int) (b : UserBody) (now : Nat) (s : Store)
    (hparse : jsParseInt idStr = some id) :
    (storeFindOne id s = none →
      UserController.update idStr b now (Except.ok s) =
        ⟨⟨404, .errMsg "User not found"⟩, ["findOne"], Except.ok s⟩) ∧
    (∀ u, storeFindOne id s = some u →
       validateUser (UserController.mergeBody u b) = [] →
       u.updatedAt < now →
       ∃ u' s',
         UserController.update idStr b now (Except.ok s) =
           ⟨⟨200, .updateOk "User updated successfully" (some u')⟩,
             ["findOne", "update"], Except.ok s'⟩ ∧
         storeFindOne id s' = some u' ∧
         u'.firstName = b.firstName.getD u.firstName ∧
         u'.lastName = b.lastName.getD u.lastName ∧
         u'.email = b.email.getD u.email ∧
         u'.age = b.age.getD u.age ∧
         u'.id = u.id ∧
         u'.createdAt = u.createdAt ∧
         u'.updatedAt = now ∧
         u.updatedAt < u'.updatedAt) := by
  constructor
  · intro ha
    simp only [UserController.update, hparse, ha]
  · intro u hu hv hc
    have hmem := storeFindOne_mem hu
    have haff : ¬ s.users.countP (fun v => decide (v.id = id)) = 0 := by
      have : 0 < s.users.countP (fun v => decide (v.id = id)) :=
        List.countP_pos_iff.2 ⟨u, hmem.1, by simpa using hmem.2⟩
      omega
    have hfind := find?_update_map id b now s.users u hu
    refine ⟨applyBody b now u,
      { s with users := s.users.map (fun v => if v.id = id then applyBody b now v else v) },
      ?_, ?_, rfl, rfl, rfl, rfl, rfl, rfl, rfl, hc⟩
    · simp only [UserController.update, hparse, hu, hv, List.length_nil, gt_iff_lt,
        lt_self_iff_false, if_false, storeUpdate, if_neg haff]
      unfold storeFindOne
      rw [hfind]
    · unfold storeFindOne
      exact hfind

/-- Witness for `update_semantics`: id "7" is absent (404 branch), and
updating id "1" with a new first name at time 9 yields the partially
updated record. -/
theorem update_semantics_witness :
    jsParseInt "1" = some 1 ∧
    ((storeFindOne 1 oneUserStore = none →
       UserController.update "1" ⟨some "Bob", none, none, none⟩ 9 (Except.ok oneUserStore) =
         ⟨⟨404, .errMsg "User not found"⟩, ["findOne"], Except.ok oneUserStore⟩) ∧
     (∀ u, storeFindOne 1 oneUserStore = some u →
        validateUser (UserController.mergeBody u ⟨some "Bob", none, none, none⟩) = [] →
        u.updatedAt < 9 →
        ∃ u' s',
          UserController.update "1" ⟨some "Bob", none, none, none⟩ 9 (Except.ok oneUserStore) =
            ⟨⟨200, .updateOk "User updated successfully" (some u')⟩,
              ["findOne", "update"], Except.ok s'⟩ ∧
          storeFindOne 1 s' = some u' ∧
          u'.firstName = (⟨some "Bob", none, none, none⟩ : UserBody).firstName.getD u.firstName ∧
          u'.lastName = (⟨some "Bob", none, none, none⟩ : UserBody).lastName.getD u.lastName ∧
          u'.email = (⟨some "Bob", none, none, none⟩ : UserBody).email.getD u.email ∧
          u'.age = (⟨some "Bob", none, none, none⟩ : UserBody).age.getD u.age ∧
          u'.id = u.id ∧
          u'.createdAt = u.createdAt ∧
          u'.updatedAt = 9 ∧
          u.updatedAt < u'.updatedAt)) :=
  ⟨by decide, update_semantics "1" 1 ⟨some "Bob", none, none, none⟩ 9 oneUserStore (by decide)⟩


/-- C6: deleting an existing id succeeds once and removes the record; an
immediately following second delete of the same id responds 404 and leaves
the state exactly as after the first delete. -/
theorem delete_twice (idStr : String) (id : Int) (s : Store)
    (hparse : jsParseInt idStr = some id)
    (hex : ∃ u ∈ s.users, u.id = id) :
    ∃ s1,
      UserController.delete idStr (Except.ok s) =
        ⟨⟨200, .deleteOk "User deleted successfully"⟩, ["delete"], Except.ok s1⟩ ∧
      (∀ u ∈ s1.users, ¬ u.id = id) ∧
      UserController.delete idStr (Except.ok s1) =
        ⟨⟨404, .errMsg "User not found"⟩, ["delete"], Except.ok s1⟩ := by
  obtain ⟨u, hmem, hid⟩ := hex
  refine ⟨⟨s.users.filter (fun v => ¬ v.id = id), s.nextId⟩, ?_, ?_, ?_⟩
  · have haff : 0 < s.users.countP (fun v => decide (v.id = id)) :=
      List.countP_pos_iff.2 ⟨u, hmem, by simpa using hid⟩
    have hdec : decide (s.users.countP (fun v => decide (v.id = id)) > 0) = true := by
      simpa using haff
    simp only [UserController.delete, hparse, storeDelete]
    rw [hdec]
    rfl
  · intro v hv
    have := List.mem_filter.1 hv
    simpa using this.2
  · have hnone : ∀ v ∈ s.users.filter (fun v => ¬ v.id = id), ¬ v.id = id := by
      intro v hv
      have := List.mem_filter.1 hv
      simpa using this.2
    have haff0 : (s.users.filter (fun v => ¬ v.id = id)).countP
        (fun v => decide (v.id = id)) = 0 := by
      rw [List.countP_eq_zero]
      intro v hv
      simpa using hnone v hv
    have hfix : (s.users.filter (fun v => ¬ v.id = id)).filter (fun v => ¬ v.id = id) =
        s.users.filter (fun v => ¬ v.id = id) := by
      apply List.filter_eq_self.2
      intro v hv
      simpa using hnone v hv
    simp only [UserController.delete, hparse, storeDelete, haff0]
    rw [hfix]
    rfl

/-- Witness for `delete_twice` on the one-record table. -/
theorem delete_twice_witness :
    jsParseInt "1" = some 1 ∧ (∃ u ∈ oneUserStore.users, u.id = 1) ∧
    (∃ s1,
      UserController.delete "1" (Except.ok oneUserStore) =
        ⟨⟨200, .deleteOk "User deleted successfully"⟩, ["delete"], Except.ok s1⟩ ∧
      (∀ u ∈ s1.users, ¬ u.id = 1) ∧
      UserController.delete "1" (Except.ok s1) =
        ⟨⟨404, .errMsg "User not found"⟩, ["delete"], Except.ok s1⟩) :=
  ⟨by decide, ⟨sampleUser, by simp [oneUserStore, sampleUser]⟩,
    delete_twice "1" 1 oneUserStore (by decide)
      ⟨sampleUser, by simp [oneUserStore, sampleUser]⟩⟩

/-- A single Update request never changes any record's `id` or `createdAt`. -/
theorem stepUpdate_id_createdAt (s : Store) (op : UpdOp) :
    (stepUpdate s op).users.map (fun u => (u.id, u.createdAt)) =
      s.users.map (fun u => (u.id, u.createdAt)) := by
  unfold stepUpdate UserController.update
  cases hp : jsParseInt op.idStr with
  | none => rfl
  | some id =>
    dsimp only
    cases hf : storeFindOne id s with
    | none => rfl
    | some u =>
      dsimp only
      by_cases he : (validateUser (UserController.mergeBody u op.body)).length > 0
      · rw [if_pos he]
      · rw [if_neg he]
        unfold storeUpdate
        by_cases ha : s.users.countP (fun v => decide (v.id = id)) = 0
        · rw [if_pos ha]
        · rw [if_neg ha]
          dsimp only
          simp only [List.map_map]
          apply List.map_congr_left
          intro v hv
          by_cases hid : v.id = id <;> simp [Function.comp, hid, applyBody]

/-- C7: over every sequence of Update requests (any ids, bodies and times),
the table's `id` and `createdAt` columns are unchanged — every record keeps
the id and creation time it was inserted with, and if ids were unique before
they remain unique. -/
theorem updates_preserve_id_createdAt (ops : List UpdOp) (s : Store) :
    (applyUpdates ops s).users.map (fun u => (u.id, u.createdAt)) =
      s.users.map (fun u => (u.id, u.createdAt)) ∧
    ((s.users.map (fun u => u.id)).Nodup →
      ((applyUpdates ops s).users.map (fun u => u.id)).Nodup) := by
  have key : ∀ (ops : List UpdOp) (s : Store),
      (applyUpdates ops s).users.map (fun u => (u.id, u.createdAt)) =
        s.users.map (fun u => (u.id, u.createdAt)) := by
    intro ops
    induction ops with
    | nil => intro s; rfl
    | cons op rest ih =>
      intro s
      have hstep : applyUpdates (op :: rest) s = applyUpdates rest (stepUpdate s op) := rfl
      rw [hstep, ih (stepUpdate s op), stepUpdate_id_createdAt]
  have hids : (applyUpdates ops s).users.map (fun u => u.id) =
      s.users.map (fun u => u.id) := by
    have h1 : ((applyUpdates ops s).users.map (fun u => (u.id, u.createdAt))).map Prod.fst =
        (s.users.map (fun u => (u.id, u.createdAt))).map Prod.fst := by rw [key ops s]
    simpa [List.map_map, Function.comp] using h1
  refine ⟨key ops s, ?_⟩
  intro hnd
  rw [hids]
  exact hnd

/-- Witness for `updates_preserve_id_createdAt`: one concrete update on the
one-record table. -/
theorem updates_preserve_id_createdAt_witness :
    ((applyUpdates [⟨"1", ⟨some "Bob", none, none, none⟩, 9⟩] oneUserStore).users.map
        (fun u => (u.id, u.createdAt)) =
      oneUserStore.users.map (fun u => (u.id, u.createdAt))) ∧
    ((applyUpdates [⟨"1", ⟨some "Bob", none, none, none⟩, 9⟩] oneUserStore).users.map
        (fun u => u.id)).Nodup :=
  ⟨(updates_preserve_id_createdAt [⟨"1", ⟨some "Bob", none, none, none⟩, 9⟩] oneUserStore).1,
   (updates_preserve_id_createdAt [⟨"1", ⟨some "Bob", none, none, none⟩, 9⟩] oneUserStore).2
     (by simp [oneUserStore, sampleUser])⟩

/-- C8: whenever the store throws (whatever the error message `e`), every
handler that reaches its repository call responds 500 with the fixed generic
message; the response is one constant, independent of `e`, so no detail of
the underlying error reaches the caller. -/
theorem store_throw_yields_500 (e : String) (q : ListQuery) (idStr : String) (id : Int)
    (b : UserBody) (now : Nat)
    (hpage : 1 ≤ effPage q) (hlim1 : 1 ≤ effLimit q) (hlim2 : effLimit q ≤ 100)
    (hid : jsParseInt idStr = some id) (hb : validateUser b = []) :
    UserController.findAll q (Except.error e) =
      ⟨⟨500, .errMsg "Internal server error"⟩, ["findAll"], Except.error e⟩ ∧
    UserController.findOne idStr (Except.error e) =
      ⟨⟨500, .errMsg "Internal server error"⟩, ["findOne"], Except.error e⟩ ∧
    UserController.create b now (Except.error e) =
      ⟨⟨500, .errMsg "Internal server error"⟩, ["create"], Except.error e⟩ ∧
    UserController.update idStr b now (Except.error e) =
      ⟨⟨500, .errMsg "Internal server error"⟩, ["findOne"], Except.error e⟩ ∧
    UserController.delete idStr (Except.error e) =
      ⟨⟨500, .errMsg "Internal server error"⟩, ["delete"], Except.error e⟩ := by
  have hp' : ¬ effPage q < 1 := by omega
  have hl' : ¬ (effLimit q < 1 ∨ effLimit q > 100) := by
    intro h
    rcases h with h | h <;> omega
  refine ⟨?_, ?_, ?_, ?_, ?_⟩
  · simp only [UserController.findAll]
    rw [if_neg hp', if_neg hl']
  · simp only [UserController.findOne, hid]
  · simp only [UserController.create, hb]
    rfl
  · simp only [UserController.update, hid]
  · simp only [UserController.delete, hid]

/-- Witness for `store_throw_yields_500` with error "boom" and default
pagination. -/
theorem store_throw_yields_500_witness :
    (1 ≤ effPage ⟨none, none⟩ ∧ 1 ≤ effLimit ⟨none, none⟩ ∧ effLimit ⟨none, none⟩ ≤ 100 ∧
     jsParseInt "1" = some 1 ∧ validateUser ⟨none, none, none, none⟩ = []) ∧
    (UserController.findAll ⟨none, none⟩ (Except.error "boom") =
       ⟨⟨500, .errMsg "Internal server error"⟩, ["findAll"], Except.error "boom"⟩ ∧
     UserController.findOne "1" (Except.error "boom") =
       ⟨⟨500, .errMsg "Internal server error"⟩, ["findOne"], Except.error "boom"⟩ ∧
     UserController.create ⟨none, none, none, none⟩ 0 (Except.error "boom") =
       ⟨⟨500, .errMsg "Internal server error"⟩, ["create"], Except.error "boom"⟩ ∧
     UserController.update "1" ⟨none, none, none, none⟩ 0 (Except.error "boom") =
       ⟨⟨500, .errMsg "Internal server error"⟩, ["findOne"], Except.error "boom"⟩ ∧
     UserController.delete "1" (Except.error "boom") =
       ⟨⟨500, .errMsg "Internal server error"⟩, ["delete"], Except.error "boom"⟩) :=
  ⟨⟨by decide, by decide, by decide, by decide, by decide⟩,
   store_throw_yields_500 "boom" ⟨none, none⟩ "1" 1 ⟨none, none, none, none⟩ 0
     (by decide) (by decide) (by decide) (by decide) (by decide)⟩

/-- Any entry a string-field check produces names that field, and only when
the property is present in the body. -/
theorem checkStrField_mem (name : String) (v : Option String) (msg : String)
    (e : FieldError) (he : e ∈ checkStrField name v msg) :
    e.field = name ∧ v.isSome = true := by
  cases v with
  | none => simp [checkStrField] at he
  | some s =>
    by_cases hs : isNotEmptyStr s
    · simp [checkStrField, hs] at he
    · simp [checkStrField, hs] at he
      subst he
      exact ⟨rfl, rfl⟩

/-- C10: with `skipMissingProperties` enabled, validation failures can only
arise from properties present in the body; in particular a Create request
whose body omits every field passes validation and proceeds to persistence
with 201 (one store call). -/
theorem missing_fields_skip_validation (b : UserBody) (s : Store) (now : Nat) :
    (∀ e ∈ validateUser b, bodyHasField b e.field = true) ∧
    ((UserController.create ⟨none, none, none, none⟩ now (Except.ok s)).resp.status = 201 ∧
     (UserController.create ⟨none, none, none, none⟩ now (Except.ok s)).calls = ["create"]) := by
  constructor
  · intro e he
    unfold validateUser at he
    simp only [List.mem_append] at he
    rcases he with ((he | he) | he) | he
    · obtain ⟨hf, hsome⟩ := checkStrField_mem _ _ _ _ he
      rw [hf]
      simp [bodyHasField, hsome]
    · obtain ⟨hf, hsome⟩ := checkStrField_mem _ _ _ _ he
      rw [hf]
      simp [bodyHasField, hsome]
    · obtain ⟨hf, hsome⟩ := checkStrField_mem _ _ _ _ he
      rw [hf]
      simp [bodyHasField, hsome]
    · cases h : b.age <;> rw [h] at he <;> simp [checkAgeField] at he
  · exact ⟨rfl, rfl⟩

/-- Witness for `missing_fields_skip_validation`: the entry produced by an
empty-string firstName names a present property, and the all-absent body is
persisted with 201. -/
theorem missing_fields_skip_validation_witness :
    bodyHasField ⟨some "", none, none, none⟩
      (⟨"firstName", [("isNotEmpty", "First name is required")]⟩ : FieldError).field = true ∧
    ((UserController.create ⟨none, none, none, none⟩ 0 (Except.ok emptyStore)).resp.status = 201 ∧
     (UserController.create ⟨none, none, none, none⟩ 0 (Except.ok emptyStore)).calls =
       ["create"]) :=
  ⟨(missing_fields_skip_validation ⟨some "", none, none, none⟩ emptyStore 0).1
     ⟨"firstName", [("isNotEmpty", "First name is required")]⟩ (by decide),
   (missing_fields_skip_validation ⟨none, none, none, none⟩ emptyStore 0).2⟩
